import Mathlib

/-!
Verification development for the py-noodle node orchestration engine.

The definitions below are a shallow embedding of the Python sources:
  - `src/pynoodle/node/lock.py`    (class RWLock and the durable lock table)
  - `src/pynoodle/node/treeger.py` (class Treeger: mount / unmount / node table)
  - `src/pynoodle/node/node.py`    (class ResourceNode: server addressing)
  - `src/pynoodle/module_cache.py` (class ICRMModule: tag validation)
  - `src/pynoodle/endpoints/node.py` (snapshot transfer: push_to cleanup)

The sqlite tables are modelled as Lists of records; one sqlite statement
becomes one pure List operation.  Python exceptions become an explicit
`PyError` value.  Execution is modelled sequentially: a transactional block
(BEGIN IMMEDIATE .. COMMIT) becomes an atomic pure function on the table.
-/

/-- Python `str.split(sep)` for a one-character separator, over the list of
characters: splitting the empty string gives one empty part, and every
separator occurrence opens a new part. -/
def pySplitChars (sep : Char) : List Char → List (List Char)
  | [] => [[]]
  | c :: rest =>
    if c == sep then [] :: pySplitChars sep rest
    else
      match pySplitChars sep rest with
      | [] => [[c]]
      | part :: parts => (c :: part) :: parts

/-- Python `s.split(sep)` for a one-character separator. -/
def pySplit (sep : Char) (s : String) : List String :=
  (pySplitChars sep s.data).map (fun cs => String.mk cs)

/-- Whether `pat` is a prefix of `cs`, over characters. -/
def pyPrefixChars : List Char → List Char → Bool
  | [], _ => true
  | _ :: _, [] => false
  | p :: ps, c :: cs => p == c && pyPrefixChars ps cs

/-- Substring occurrence over characters. -/
def pySubChars (pat : List Char) : List Char → Bool
  | [] => pyPrefixChars pat []
  | c :: cs => pyPrefixChars pat (c :: cs) || pySubChars pat cs

/-- Python `needle in hay` on strings. -/
def pyInStr (needle hay : String) : Bool :=
  pySubChars needle.data hay.data

/-- Python exceptions that the embedded code can raise. -/
inductive PyError : Type
  | timeoutError (msg : String)
  | attributeError (msg : String)
  | operationalError (msg : String)
  | valueError (msg : String)
  deriving DecidableEq, Repr

/-- One row of the `locks` sqlite table (lock.py, RWLock.init):
columns node_key, lock_type, lock_id (PRIMARY KEY), access_level. -/
structure LockRecord : Type where
  node_key : String
  lock_type : String
  lock_id : String
  access_level : String
  deriving DecidableEq, Repr

/-- lock.py line 71-75, `RWLock.is_node_locked`:
SELECT 1 FROM locks WHERE node_key = ? is non-empty. -/
def RWLock.is_node_locked (locks : List LockRecord) (node_key : String) : Bool :=
  locks.any (fun r => r.node_key == node_key)

/-- lock.py line 92-96, `RWLock.has_lock`:
SELECT 1 FROM locks WHERE lock_id = ? is non-empty. -/
def RWLock.has_lock (locks : List LockRecord) (lock_id : String) : Bool :=
  locks.any (fun r => r.lock_id == lock_id)

/-- lock.py line 98-103, `RWLock.remove_lock`:
DELETE FROM locks WHERE lock_id = ?. -/
def RWLock.remove_lock (locks : List LockRecord) (lock_id : String) : List LockRecord :=
  locks.filter (fun r => !(r.lock_id == lock_id))

/-- lock.py line 84-89, `RWLock.unlock_nodes`:
DELETE FROM locks WHERE node_key IN (?, ..., ?).  With an empty key list the
generated SQL is `DELETE FROM locks WHERE node_key IN ()`, which sqlite
rejects with a syntax error, so sqlite3 raises OperationalError. -/
def RWLock.unlock_nodes (locks : List LockRecord) (node_keys : List String) :
    Except PyError (List LockRecord) :=
  if node_keys.isEmpty then
    Except.error (PyError.operationalError "near \")\": syntax error")
  else
    Except.ok (locks.filter (fun r => !(node_keys.contains r.node_key)))

/-- lock.py lines 170-180 (and identically 231-241 in `async_acquire`):
the compatibility check run inside the BEGIN IMMEDIATE transaction.
A write lock needs COUNT(*) of rows with this node_key to be 0; a read lock
needs COUNT(*) of rows with this node_key and lock_type `w` to be 0. -/
def RWLock.can_acquire (locks : List LockRecord) (node_key lock_type : String) : Bool :=
  if lock_type == "w" then
    (locks.filter (fun r => r.node_key == node_key)).length == 0
  else
    (locks.filter (fun r => r.node_key == node_key && r.lock_type == "w")).length == 0

/-- lock.py lines 166-191 (and identically 227-252): one iteration of the
acquire loop, i.e. one BEGIN IMMEDIATE transaction.  On success the INSERT of
line 183-186 appends the new row and the transaction commits (`some` new
table); otherwise the transaction rolls back (`none`, table unchanged). -/
def RWLock.attempt_acquire (locks : List LockRecord)
    (node_key lock_type lock_id access_level : String) :
    Option (List LockRecord) :=
  if RWLock.can_acquire locks node_key lock_type then
    some (locks ++ [⟨node_key, lock_type, lock_id, access_level⟩])
  else
    none

/-- The message built at lock.py line 203 / 264.  The f-string there reads
`self.resource_name`, an attribute that no code ever assigns, so evaluating
the message raises AttributeError before the TimeoutError is constructed. -/
def RWLock.timeout_raise_result : PyError :=
  PyError.attributeError "RWLock object has no attribute resource_name"

/-- Number of loop iterations the while-condition of lock.py line 162
permits for a non-null timeout: iteration j begins at elapsed time
j * retry_interval, and runs only while that is < timeout. -/
def RWLock.num_iterations (timeout retry_interval : Nat) : Nat :=
  (timeout + retry_interval - 1) / retry_interval

/-- lock.py lines 161-203: the acquire retry loop for a non-null timeout.
`env j` is the lock-table contents observed by the j-th transaction (other
processes may change the table between retries).  When the permitted
iterations are exhausted, line 203 is reached; evaluating its f-string
raises AttributeError (see `RWLock.timeout_raise_result`).  `async_acquire`
(lines 222-264) is textually identical except for the sleep primitive. -/
def RWLock.acquire_loop (env : Nat → List LockRecord)
    (node_key lock_type lock_id access_level : String) :
    (j : Nat) → (remaining : Nat) → Except PyError (List LockRecord)
  | _, 0 => Except.error RWLock.timeout_raise_result
  | j, remaining + 1 =>
    match RWLock.attempt_acquire (env j) node_key lock_type lock_id access_level with
    | some locks2 => Except.ok locks2
    | none => RWLock.acquire_loop env node_key lock_type lock_id access_level (j + 1) remaining

/-- lock.py lines 154-203, `RWLock.acquire` with a non-null timeout:
the `acquired()` early return of line 158 against the initial table, then
the retry loop. -/
def RWLock.acquire (init : List LockRecord) (env : Nat → List LockRecord)
    (node_key lock_type lock_id access_level : String)
    (timeout retry_interval : Nat) : Except PyError (List LockRecord) :=
  if RWLock.has_lock init lock_id then
    Except.ok init
  else
    RWLock.acquire_loop env node_key lock_type lock_id access_level 0
      (RWLock.num_iterations timeout retry_interval)

/-- The reader-writer exclusion invariant of the lock table: a record holding
a write lock on a key is the only record on that key. -/
def RWLock.exclusion (locks : List LockRecord) : Prop :=
  ∀ r ∈ locks, r.lock_type = "w" →
    ∀ s ∈ locks, s.node_key = r.node_key → s = r

instance (locks : List LockRecord) : Decidable (RWLock.exclusion locks) := by
  unfold RWLock.exclusion
  infer_instance

/-- One row of the `node` sqlite table (treeger.py, Treeger.init): columns
parent_key, template_name, node_key (PRIMARY KEY), access_info,
launch_params.  parent_key carries ON DELETE CASCADE. -/
structure NodeRecord : Type where
  node_key : String
  parent_key : Option String
  template_name : Option String
  access_info : Option String
  launch_params : Option String
  deriving DecidableEq, Repr

/-- treeger.py line 63-67, `Treeger._has_node`. -/
def Treeger.has_node (nodes : List NodeRecord) (node_key : String) : Bool :=
  nodes.any (fun r => r.node_key == node_key)

/-- treeger.py line 94-98, `Treeger._get_child_keys`:
SELECT node_key FROM node WHERE parent_key = ?. -/
def Treeger.child_keys (nodes : List NodeRecord) (parent_key : String) : List String :=
  (nodes.filter (fun r => r.parent_key == some parent_key)).map (fun r => r.node_key)

/-- Whether the cascade load of treeger.py line 132-146 finds any children. -/
def Treeger.has_children (nodes : List NodeRecord) (node_key : String) : Bool :=
  nodes.any (fun r => r.parent_key == some node_key)

/-- treeger.py line 117: the template object attached to a loaded record is
`module_cache.templates.get(row[TEMPLATE_NAME])` when the stored name is
truthy, else None.  The module cache is modelled by the list of template
names it holds. -/
def Treeger.record_template (cache : List String) (r : NodeRecord) : Option String :=
  match r.template_name with
  | some t => if t != "" && cache.contains t then some t else none
  | none => none

/-- treeger.py lines 242-243: a record is a proxy when access_info is
non-null and contains the substring "::". -/
def Treeger.is_proxy_info (access_info : Option String) : Bool :=
  match access_info with
  | some a => pyInStr "::" a
  | none => false

/-- treeger.py line 69-85, `Treeger._insert_node`: INSERT INTO node; the
parent and launch-params arguments are NULLed when falsy by the caller
before this model is invoked. -/
def Treeger.insert_node (nodes : List NodeRecord) (node_key : String)
    (parent_key : Option String) (template_name : Option String)
    (launch_params : Option String) : List NodeRecord :=
  nodes ++ [⟨node_key, parent_key, template_name, none, launch_params⟩]

/-- The keys transitively removed by ON DELETE CASCADE (Treeger.init sets
the foreign key on parent_key; _connect_db turns PRAGMA foreign_keys ON),
computed as a fixpoint with fuel bounded by the table size. -/
def Treeger.dead_closure (nodes : List NodeRecord) : Nat → List String → List String
  | 0, dead => dead
  | n + 1, dead =>
    let more := (nodes.filter (fun r =>
      !(dead.contains r.node_key) &&
      (match r.parent_key with | some p => dead.contains p | none => false))).map
        (fun r => r.node_key)
    if more.isEmpty then dead else Treeger.dead_closure nodes n (dead ++ more)

/-- treeger.py line 87-92, `Treeger._delete_node`: DELETE FROM node WHERE
node_key = ?, with the cascade to all transitive children. -/
def Treeger.delete_node (nodes : List NodeRecord) (node_key : String) : List NodeRecord :=
  let dead := Treeger.dead_closure nodes nodes.length [node_key]
  nodes.filter (fun r => !(dead.contains r.node_key))

/-- treeger.py line 203-204: parent_key is the dot-join of all but the last
segment of the node key. -/
def Treeger.parent_string (node_key : String) : String :=
  String.intercalate "." ((pySplit '.' node_key).dropLast)

/-- The diagnostic of treeger.py line 250. -/
def Treeger.locked_msg (current_key node_key : String) : String :=
  "Node \"" ++ current_key ++ "\" is locked, cannot unmount node \"" ++ node_key ++
  "\" recursively. Unlock node \"" ++ current_key ++ "\" first, then retry unmounting."

/-- `str(e)` for the exceptions the embedded operations raise. -/
def PyError.message : PyError → String
  | PyError.timeoutError m => m
  | PyError.attributeError m => m
  | PyError.operationalError m => m
  | PyError.valueError m => m

/-- Identifier of the n-th local write pre-lock taken by the unmount walk
(treeger.py line 254); the uuid-based ids of lock.py line 31 are fresh, so
they are modelled by a counter. -/
def Treeger.prelock_id (ctr : Nat) : String :=
  "unmount-prelock-" ++ toString ctr

/-- Result of the stack walk of treeger.py lines 236-260: either the walk
completed and produced the list of (node_key, template) pairs to delete,
or a visited node raised (locked node, line 249-251).  The lock table after
the walk and the list collected so far accompany both outcomes. -/
inductive WalkResult : Type
  | completed (visited : List (String × Option String)) (locks : List LockRecord) (ctr : Nat)
  | raised (e : PyError) (visited : List (String × Option String))
      (locks : List LockRecord) (ctr : Nat)
  | out_of_fuel
  deriving DecidableEq, Repr

/-- treeger.py lines 236-260: the depth-first unmount walk.  The Python
stack pops from the end and extends with child keys, modelled here with the
top of the stack at the head.  A visited non-proxy unlocked node is
pre-locked via `RWLock.lock_node(key, 'w', 'l')`: since the key was just
seen unlocked, the blocking acquire succeeds on its first transaction and
appends a write-lock row.  Proxy nodes are skipped entirely (their children
are not pushed).  `root` is only used for the diagnostic message. -/
def Treeger.unmount_walk (cache : List String) (nodes : List NodeRecord) (root : String) :
    Nat → List String → List LockRecord → List (String × Option String) → Nat → WalkResult
  | 0, _, _, _, _ => WalkResult.out_of_fuel
  | _ + 1, [], locks, visited, ctr => WalkResult.completed visited locks ctr
  | fuel + 1, k :: stack, locks, visited, ctr =>
    match List.find? (fun r => r.node_key == k) nodes with
    | none =>
      WalkResult.raised (PyError.attributeError "NoneType object has no attribute access_info")
        visited locks ctr
    | some r =>
      if Treeger.is_proxy_info r.access_info then
        Treeger.unmount_walk cache nodes root fuel stack locks visited ctr
      else if RWLock.is_node_locked locks k then
        WalkResult.raised (PyError.valueError (Treeger.locked_msg k root)) visited locks ctr
      else
        let locks2 := locks ++ [⟨k, "w", Treeger.prelock_id ctr, "l"⟩]
        let visited2 := visited ++ [(k, Treeger.record_template cache r)]
        let stack2 :=
          if Treeger.has_children nodes k then (Treeger.child_keys nodes k).reverse ++ stack
          else stack
        Treeger.unmount_walk cache nodes root fuel stack2 locks2 visited2 (ctr + 1)

/-- treeger.py lines 227-280, `Treeger.unmount`.  Returns the node table,
the lock table, the log of unmount-hook invocations (template name paired
with the node key passed to the hook, treeger.py line 268), and the
`(bool, message)` result.  The except-branch (lines 275-280) releases the
pre-locks with `unlock_nodes` only when nodes_to_delete is non-empty. -/
def Treeger.unmount (cache : List String) (nodes : List NodeRecord)
    (locks : List LockRecord) (node_key : String) (fuel : Nat) :
    (List NodeRecord × List LockRecord) × List (String × String) × (Bool × String) :=
  if !(Treeger.has_node nodes node_key) then ((nodes, locks), [], (true, ""))
  else
    match Treeger.unmount_walk cache nodes node_key fuel [node_key] locks [] 0 with
    | WalkResult.out_of_fuel => ((nodes, locks), [], (false, "model: out of fuel"))
    | WalkResult.raised e visited locks2 _ =>
      let locks3 :=
        if visited.isEmpty then locks2
        else
          match RWLock.unlock_nodes locks2 (visited.map Prod.fst) with
          | Except.ok l => l
          | Except.error _ => locks2
      ((nodes, locks3), [], (false, PyError.message e))
    | WalkResult.completed visited locks2 _ =>
      let nodes2 := visited.foldl (fun ns v => Treeger.delete_node ns v.1) nodes
      let hook_log := visited.filterMap (fun v => v.2.map (fun t => (t, v.1)))
      match RWLock.unlock_nodes locks2 (visited.map Prod.fst) with
      | Except.ok locks3 => ((nodes2, locks3), hook_log, (true, ""))
      | Except.error e =>
        let locks3 :=
          if visited.isEmpty then locks2
          else
            match RWLock.unlock_nodes locks2 (visited.map Prod.fst) with
            | Except.ok l => l
            | Except.error _ => locks2
        ((nodes2, locks3), hook_log, (false, PyError.message e))

/-- Possible values returned by a template mount hook, as Python sees them:
None, a dict, or anything else (treeger.py line 211-213 checks
`isinstance(launch_params, dict)`). -/
inductive HookRet : Type
  | noneVal
  | dict (entries : List (String × String))
  | nonDict
  deriving DecidableEq, Repr

/-- Abstract model of `json.dumps(launch_params, indent=4)` at treeger.py
line 215; the claims never inspect the encoding, only whether a string is
stored. -/
def Treeger.json_dumps (entries : List (String × String)) : String :=
  String.intercalate ", " (entries.map (fun p => p.1 ++ ": " ++ p.2))

/-- treeger.py lines 202-221: parent validation, mount hook, insertion. -/
def Treeger.mount_checked
    (hook : String → String → Option α → Except String HookRet)
    (nodes : List NodeRecord) (node_key : String)
    (node_template_name : Option String) (tmpl : Option String) (mount_params : Option α) :
    List NodeRecord × List (String × String × Option α) × (Bool × String) :=
  let p := Treeger.parent_string node_key
  let parent_key : Option String := if p == "" then none else some p
  if (match parent_key with
      | some pk => !(Treeger.has_node nodes pk)
      | none => false) then
    (nodes, [],
      (false, "Parent node \"" ++ p ++ "\" not found in scene for node \"" ++ node_key ++ "\""))
  else
    match tmpl with
    | none =>
      -- line 209: no template, launch_params_json stays None; insert (line 218)
      (Treeger.insert_node nodes node_key parent_key node_template_name none, [], (true, ""))
    | some t =>
      -- line 211: call the mount hook
      match hook t node_key mount_params with
      | Except.error e => (nodes, [(t, node_key, mount_params)], (false, e))
      | Except.ok HookRet.nonDict =>
        (nodes, [(t, node_key, mount_params)],
          (false, "Launch parameters for node \"" ++ node_key ++
            "\" must be a dictionary if provided"))
      | Except.ok HookRet.noneVal =>
        (Treeger.insert_node nodes node_key parent_key node_template_name none,
          [(t, node_key, mount_params)], (true, ""))
      | Except.ok (HookRet.dict d) =>
        -- line 215: an empty dict is falsy, so json stays None
        let j : Option String := if d.isEmpty then none else some (Treeger.json_dumps d)
        (Treeger.insert_node nodes node_key parent_key node_template_name j,
          [(t, node_key, mount_params)], (true, ""))

/-- treeger.py lines 178-225, `Treeger.mount`.  `cache` is the set of
template names in the module cache; `hook t k mp` is template t's mount
hook (user code), raising is `Except.error`.  Returns the node table, the
log of mount-hook invocations (template, node_key, params), and the
`(bool, message)` result.  Python truthiness: a None or empty template
name means a resource-set mount; the raw name is still stored on insert. -/
def Treeger.mount (cache : List String)
    (hook : String → String → Option α → Except String HookRet)
    (nodes : List NodeRecord) (node_key : String)
    (node_template_name : Option String) (mount_params : Option α) :
    List NodeRecord × List (String × String × Option α) × (Bool × String) :=
  if Treeger.has_node nodes node_key then
    -- line 183-185: already mounted, idempotent success
    ((nodes), [], (true, ""))
  else
    -- line 197-200: resolve the template when the name is truthy
    let tmpl : Option String :=
      match node_template_name with
      | some t => if t != "" then some t else none
      | none => none
    match tmpl with
    | some t =>
      if !(cache.contains t) then
        (nodes, [],
          (false, "ResourceNodeTemplate \"" ++ t ++ "\" not found in noodle module cache"))
      else
        Treeger.mount_checked hook nodes node_key node_template_name (some t) mount_params
    | none => Treeger.mount_checked hook nodes node_key node_template_name none mount_params

/-- node.py lines 144-151, `ResourceNode.server_address`: scheme chosen by
access level, then the node key with dots flattened to underscores, an
underscore, and the lock id. -/
def ResourceNode.server_address (access_level node_key lock_id : String) : String :=
  let scheme :=
    if access_level == "l" then "local://"
    else if access_level == "p" then "memory://"
    else ""
  scheme ++ (node_key.replace "." "_") ++ "_" ++ lock_id

/-- The address the spec formula prescribes (spec section 4.4): literally
"<scheme>://" + node_key.replace(".", "_") + "_" + lock_id. -/
def spec_server_address (scheme node_key lock_id : String) : String :=
  scheme ++ "://" ++ (node_key.replace "." "_") ++ "_" ++ lock_id

/-- module_cache.py lines 98-102, `ICRMModule.__post_init__`: reject the tag
exactly when splitting on "/" does not give three parts. -/
def ICRMModule.post_init (tag : String) : Except PyError Unit :=
  let parts := pySplit '/' tag
  if parts.length != 3 then
    Except.error (PyError.valueError
      ("ICRM tag \"" ++ tag ++ "\" is not in the format \"namespace/name/version\""))
  else
    Except.ok ()

/-- The acceptance condition the claim / spec section 3 states for ICRM
tags: the slash-split yields three non-empty parts. -/
def spec_tag_ok (tag : String) : Bool :=
  (pySplit '/' tag).length == 3 && (pySplit '/' tag).all (fun s => s != "")

/-- endpoints/node.py lines 387-396: the lock steps of `packing` on the
source peer: `RWLock.lock_node(node_key, 'r', 'l')` then the same on the
tar-lock key.  With no contention each lock_node is one successful
transaction (lock.py lines 77-82). -/
def Endpoints.packing_lock_step (locks : List LockRecord)
    (node_key node_lock_id tar_lock_id : String) : Option (List LockRecord) :=
  (RWLock.attempt_acquire locks node_key "r" node_lock_id "l").bind
    (fun l1 => RWLock.attempt_acquire l1 (node_key ++ "_tar") "r" tar_lock_id "l")

/-- endpoints/node.py lines 404-438, `push_to`.  The response is
`(chunk_index, chunk_length, is_last_chunk)` for an existing archive and
`none` for the 404 branch; the chunk payload is modelled by its length
(`f.read(chunk_size)` after seeking to chunk_index * chunk_size).  The
finally block of lines 426-438 runs on every call: it calls
`RWLock.remove_lock` — which deletes by lock_id — passing node keys, then
unlinks the archive when no lock row on the tar key remains. -/
def Endpoints.push_to (locks : List LockRecord) (archive_exists : Bool)
    (file_size chunk_index chunk_size : Nat) (node_key : String) :
    Option (Nat × Nat × Bool) × List LockRecord × Bool :=
  let response : Option (Nat × Nat × Bool) :=
    if archive_exists then
      let len := min chunk_size (file_size - chunk_index * chunk_size)
      some (chunk_index, len, decide (len < chunk_size))
    else none
  let tar_lock_key := node_key ++ "_tar"
  let locks1 := RWLock.remove_lock locks node_key
  let locks2 := RWLock.remove_lock locks1 tar_lock_key
  if !(RWLock.is_node_locked locks2 tar_lock_key) then
    (response, locks2, false)
  else
    (response, locks2, archive_exists)

/-! ## Theorems -/

theorem RWLock.can_acquire_w_iff (locks : List LockRecord) (k : String) :
    RWLock.can_acquire locks k "w" = true ↔ ∀ r ∈ locks, r.node_key ≠ k := by
  unfold RWLock.can_acquire
  simp [List.filter_eq_nil_iff, List.length_eq_zero]

theorem RWLock.can_acquire_r_iff (locks : List LockRecord) (k t : String)
    (h : (t == "w") = false) :
    RWLock.can_acquire locks k t = true ↔
      ∀ r ∈ locks, r.node_key = k → r.lock_type ≠ "w" := by
  unfold RWLock.can_acquire
  rw [h]
  simp [List.filter_eq_nil_iff, List.length_eq_zero]

/-- Claim C1: the lock table preserves reader-writer exclusion.  Each
committed acquisition transaction (shared by `acquire` and `async_acquire`)
keeps the exclusion invariant; it inserts a write-lock row only when no row
for the node_key exists, and a read-lock row only when no write-lock row
for the node_key exists; and releasing rows (`remove_lock`, the DELETE of
`release`) also keeps the invariant, so the invariant holds for the
lifetime of every lock. -/
theorem claim_C1_lock_exclusion (locks locks2 : List LockRecord)
    (k t lid lvl : String)
    (hexc : RWLock.exclusion locks)
    (hacq : RWLock.attempt_acquire locks k t lid lvl = some locks2) :
    RWLock.exclusion locks2 ∧
    (t = "w" → ∀ r ∈ locks, r.node_key ≠ k) ∧
    (t ≠ "w" → ∀ r ∈ locks, r.node_key = k → r.lock_type ≠ "w") ∧
    (∀ anyId, RWLock.exclusion (RWLock.remove_lock locks2 anyId)) := by
  unfold RWLock.attempt_acquire at hacq
  by_cases hca : RWLock.can_acquire locks k t = true
  · rw [if_pos hca] at hacq
    have hlk : locks2 = locks ++ [⟨k, t, lid, lvl⟩] := by
      exact (Option.some.injEq _ _).mp hacq |>.symm
    subst hlk
    have hmain : RWLock.exclusion (locks ++ [⟨k, t, lid, lvl⟩]) ∧
        (t = "w" → ∀ r ∈ locks, r.node_key ≠ k) ∧
        (t ≠ "w" → ∀ r ∈ locks, r.node_key = k → r.lock_type ≠ "w") := by
      by_cases ht : t = "w"
      · subst ht
        have hno : ∀ r ∈ locks, r.node_key ≠ k := (RWLock.can_acquire_w_iff locks k).mp hca
        refine ⟨?_, fun _ => hno, fun hne => absurd rfl hne⟩
        intro r hr hw s hs hsk
        rcases List.mem_append.mp hr with hr0 | hr1
        · rcases List.mem_append.mp hs with hs0 | hs1
          · exact hexc r hr0 hw s hs0 hsk
          · have : s = ⟨k, "w", lid, lvl⟩ := List.mem_singleton.mp hs1
            subst this
            exact absurd hsk.symm (hno r hr0)
        · have : r = ⟨k, "w", lid, lvl⟩ := List.mem_singleton.mp hr1
          subst this
          rcases List.mem_append.mp hs with hs0 | hs1
          · exact absurd hsk (hno s hs0)
          · exact List.mem_singleton.mp hs1
      · have hbe : (t == "w") = false := by
          simp [ht]
        have hno : ∀ r ∈ locks, r.node_key = k → r.lock_type ≠ "w" :=
          (RWLock.can_acquire_r_iff locks k t hbe).mp hca
        refine ⟨?_, fun heq => absurd heq ht, fun _ => hno⟩
        intro r hr hw s hs hsk
        rcases List.mem_append.mp hr with hr0 | hr1
        · rcases List.mem_append.mp hs with hs0 | hs1
          · exact hexc r hr0 hw s hs0 hsk
          · have : s = ⟨k, t, lid, lvl⟩ := List.mem_singleton.mp hs1
            subst this
            exact absurd hw (hno r hr0 hsk.symm)
        · have : r = ⟨k, t, lid, lvl⟩ := List.mem_singleton.mp hr1
          subst this
          exact absurd hw ht
    refine ⟨hmain.1, hmain.2.1, hmain.2.2, ?_⟩
    intro anyId r hr hw s hs hsk
    have hr2 := List.mem_of_mem_filter hr
    have hs2 := List.mem_of_mem_filter hs
    exact hmain.1 r hr2 hw s hs2 hsk
  · rw [if_neg hca] at hacq
    exact absurd hacq (by simp)

/-- Witness for claim C1 at a concrete table: a second read lock joins an
existing read lock on the same key. -/
theorem claim_C1_lock_exclusion_witness :
    RWLock.exclusion
      ([⟨"m", "r", "id0", "l"⟩] ++ [⟨"m", "r", "id1", "l"⟩] : List LockRecord) ∧
    ("r" = "w" → ∀ r ∈ ([⟨"m", "r", "id0", "l"⟩] : List LockRecord), r.node_key ≠ "m") ∧
    ("r" ≠ "w" → ∀ r ∈ ([⟨"m", "r", "id0", "l"⟩] : List LockRecord),
      r.node_key = "m" → r.lock_type ≠ "w") ∧
    (∀ anyId, RWLock.exclusion
      (RWLock.remove_lock ([⟨"m", "r", "id0", "l"⟩] ++ [⟨"m", "r", "id1", "l"⟩]) anyId)) :=
  claim_C1_lock_exclusion [⟨"m", "r", "id0", "l"⟩]
    ([⟨"m", "r", "id0", "l"⟩] ++ [⟨"m", "r", "id1", "l"⟩]) "m" "r" "id1" "l"
    (by decide) (by rfl)

theorem RWLock.acquire_loop_all_fail (env : Nat → List LockRecord)
    (k t lid lvl : String) (hfail : ∀ i, RWLock.can_acquire (env i) k t = false) :
    ∀ n j, RWLock.acquire_loop env k t lid lvl j n =
      Except.error RWLock.timeout_raise_result := by
  intro n
  induction n with
  | zero => intro j; rfl
  | succ m ih =>
    intro j
    unfold RWLock.acquire_loop RWLock.attempt_acquire
    rw [hfail j]
    simp only [Bool.false_eq_true, if_false]
    exact ih (j + 1)

/-- Claim C2 (code bug): when the timeout elapses without the lock being
granted, lock.py line 203 (and line 264 of `async_acquire`) is reached;
its f-string reads `self.resource_name`, an attribute RWLock never
defines, so the call raises AttributeError — not the TimeoutError the
claim and spec require.  No lock row was inserted (only a committed
transaction returns a table containing the new row). -/
theorem claim_C2_timeout_attribute_error (init : List LockRecord)
    (env : Nat → List LockRecord) (k t lid lvl : String) (timeout retry : Nat)
    (hfresh : RWLock.has_lock init lid = false)
    (hfail : ∀ i, RWLock.can_acquire (env i) k t = false) :
    RWLock.acquire init env k t lid lvl timeout retry =
      Except.error (PyError.attributeError "RWLock object has no attribute resource_name") ∧
    ∀ m, RWLock.acquire init env k t lid lvl timeout retry ≠
      Except.error (PyError.timeoutError m) := by
  have hrun : RWLock.acquire init env k t lid lvl timeout retry =
      Except.error RWLock.timeout_raise_result := by
    unfold RWLock.acquire
    rw [hfresh]
    simp only [Bool.false_eq_true, if_false]
    exact RWLock.acquire_loop_all_fail env k t lid lvl hfail _ 0
  refine ⟨hrun, ?_⟩
  intro m hcontra
  rw [hrun] at hcontra
  exact absurd (Except.error.injEq _ _ |>.mp hcontra) (by simp [RWLock.timeout_raise_result])

/-- Witness for claim C2: a writer holds "n", a second writer requests "n"
with timeout 2 and retry interval 1, never succeeds, and the AttributeError
surfaces. -/
theorem claim_C2_timeout_attribute_error_witness :
    RWLock.acquire [] (fun _ => [⟨"n", "w", "w1", "l"⟩]) "n" "w" "id9" "l" 2 1 =
      Except.error (PyError.attributeError "RWLock object has no attribute resource_name") ∧
    ∀ m, RWLock.acquire [] (fun _ => [⟨"n", "w", "w1", "l"⟩]) "n" "w" "id9" "l" 2 1 ≠
      Except.error (PyError.timeoutError m) :=
  claim_C2_timeout_attribute_error [] (fun _ => [⟨"n", "w", "w1", "l"⟩])
    "n" "w" "id9" "l" 2 1 (by decide)
    (fun _ =>
      (by decide : RWLock.can_acquire [⟨"n", "w", "w1", "l"⟩] "n" "w" = false))

/-- Claim C4: mount is idempotent on the node key.  When the key already
exists in the node table, mount returns success with an empty message,
leaves the node table untouched, and invokes no mount hook (the invocation
log is empty), whatever the template name and mount parameters are. -/
theorem claim_C4_mount_idempotent {α : Type} (cache : List String)
    (hook : String → String → Option α → Except String HookRet)
    (nodes : List NodeRecord) (k : String)
    (tn : Option String) (mp : Option α)
    (hmem : Treeger.has_node nodes k = true) :
    Treeger.mount cache hook nodes k tn mp = (nodes, [], (true, "")) := by
  unfold Treeger.mount
  rw [hmem]
  simp

/-- Witness for claim C4 at a concrete table. -/
theorem claim_C4_mount_idempotent_witness :
    Treeger.mount ["t1"] (fun _ _ _ => Except.ok HookRet.nonDict)
      [⟨"a", none, none, none, none⟩] "a" (some "t1") (some 7) =
      ([⟨"a", none, none, none, none⟩], [], (true, "")) :=
  claim_C4_mount_idempotent ["t1"] (fun _ _ _ => Except.ok HookRet.nonDict)
    [⟨"a", none, none, none, none⟩] "a" (some "t1") (some 7) (by decide)

/-- Counterexample for claim C7: the tag "a//1" has an empty name segment,
which the claim says is rejected at construction; `ICRMModule.__post_init__`
only counts the parts of the slash-split, so the tag is accepted. -/
theorem claim_C7_counterexample :
    ICRMModule.post_init "a//1" = Except.ok () ∧ spec_tag_ok "a//1" = false :=
  ⟨rfl, by decide⟩

/-- Claim C7 (amended): constructing an ICRM module descriptor fails exactly
when splitting its tag on "/" does not yield exactly three parts; the parts
may be empty. -/
theorem claim_C7_tag_validation (tag : String) :
    (∃ e, ICRMModule.post_init tag = Except.error e) ↔ (pySplit '/' tag).length ≠ 3 := by
  unfold ICRMModule.post_init
  by_cases h : (pySplit '/' tag).length = 3
  · simp [h]
  · simp [h]

/-- Claim C9: the local node handle server address is the scheme prefix,
the node key with dots flattened to underscores, an underscore, and the
lock id; scheme `local` for access level l and `memory` for access
level p. -/
theorem claim_C9_server_address (node_key lock_id : String) :
    ResourceNode.server_address "l" node_key lock_id =
      spec_server_address "local" node_key lock_id ∧
    ResourceNode.server_address "p" node_key lock_id =
      spec_server_address "memory" node_key lock_id := by
  constructor
  · simp [ResourceNode.server_address, spec_server_address]
  · simp [ResourceNode.server_address, spec_server_address]

/-- Claim C10: unmounting a node whose record is a proxy (access_info
containing "::") deletes nothing and runs no unmount hook — the walk skips
the proxy, collects nothing, and the success path then calls
`unlock_nodes([])`, whose empty IN () clause makes sqlite raise — so the
call returns failure and the tree and lock table are unchanged (the proxy
record is still present). -/
theorem claim_C10_unmount_proxy (cache : List String) (nodes : List NodeRecord)
    (locks : List LockRecord) (k : String) (r : NodeRecord) (fuel : Nat)
    (hfind : List.find? (fun q => q.node_key == k) nodes = some r)
    (hproxy : Treeger.is_proxy_info r.access_info = true) :
    Treeger.unmount cache nodes locks k (fuel + 2) =
      ((nodes, locks), [], (false, "near \")\": syntax error")) := by
  have hmem : Treeger.has_node nodes k = true := by
    have hpred := List.find?_some hfind
    unfold Treeger.has_node
    exact List.any_eq_true.mpr ⟨r, List.mem_of_find?_eq_some hfind, hpred⟩
  have hwalk : Treeger.unmount_walk cache nodes k (fuel + 2) [k] locks [] 0 =
      WalkResult.completed [] locks 0 := by
    unfold Treeger.unmount_walk
    rw [hfind]
    simp only [hproxy, if_true]
    rfl
  unfold Treeger.unmount
  rw [hmem, hwalk]
  rfl

/-- Witness for claim C10 at a concrete proxy record. -/
theorem claim_C10_unmount_proxy_witness :
    Treeger.unmount ["tp"]
      [⟨"a", none, none, none, none⟩,
       ⟨"a.p", some "a", some "tp", some "http://x::remote.k", none⟩]
      [] "a.p" (0 + 2) =
      (([⟨"a", none, none, none, none⟩,
         ⟨"a.p", some "a", some "tp", some "http://x::remote.k", none⟩], []),
       [], (false, "near \")\": syntax error")) :=
  claim_C10_unmount_proxy ["tp"]
    [⟨"a", none, none, none, none⟩,
     ⟨"a.p", some "a", some "tp", some "http://x::remote.k", none⟩]
    [] "a.p" ⟨"a.p", some "a", some "tp", some "http://x::remote.k", none⟩ 0
    (by decide) (by decide)

/-- Claim C6: unmounting the unlocked resource set a with templated
children a.b and a.c removes all three records, invokes the unmount hook of
template tb exactly once with key a.b and that of tc exactly once with key
a.c (the hook-invocation log is exactly those two calls), releases every
pre-lock, and returns success. -/
theorem claim_C6_cascade_unmount :
    Treeger.unmount ["tb", "tc"]
      [⟨"a", none, none, none, none⟩,
       ⟨"a.b", some "a", some "tb", none, none⟩,
       ⟨"a.c", some "a", some "tc", none, none⟩]
      [] "a" 10 =
      (([], []), [("tc", "a.c"), ("tb", "a.b")], (true, "")) := by
  rfl

/-- Claim C8 (code bug): after `packing` takes the source-node read lock and
the tar lock, a `push_to` call that returns the final chunk
(is_last_chunk = true, here a 5-byte archive against a 1 MiB chunk size)
must — per the claim — release the source read lock, and archive deletion
must be reference-counted by the remaining tar locks.  Instead the finally
block of push_to calls `RWLock.remove_lock` (which deletes by lock_id) with
node keys, so both lock rows survive every call and the archive is never
deleted. -/
theorem claim_C8_push_to_releases_nothing :
    Endpoints.packing_lock_step [] "a.b" "pid_7_tid_1_cafe" "pid_7_tid_1_beef" =
      some [⟨"a.b", "r", "pid_7_tid_1_cafe", "l"⟩,
            ⟨"a.b_tar", "r", "pid_7_tid_1_beef", "l"⟩] ∧
    Endpoints.push_to
      [⟨"a.b", "r", "pid_7_tid_1_cafe", "l"⟩,
       ⟨"a.b_tar", "r", "pid_7_tid_1_beef", "l"⟩]
      true 5 0 1048576 "a.b" =
      (some (0, 5, true),
       [⟨"a.b", "r", "pid_7_tid_1_cafe", "l"⟩,
        ⟨"a.b_tar", "r", "pid_7_tid_1_beef", "l"⟩],
       true) := by
  exact ⟨rfl, by decide⟩


theorem Treeger.mount_checked_atomic {α : Type}
    (hook : String → String → Option α → Except String HookRet)
    (nodes : List NodeRecord) (k : String) (tn tmpl : Option String) (mp : Option α)
    (nodes2 : List NodeRecord) (log : List (String × String × Option α))
    (ok : Bool) (msg : String)
    (heq : Treeger.mount_checked hook nodes k tn tmpl mp = (nodes2, log, (ok, msg))) :
    (ok = false → nodes2 = nodes) ∧
    (ok = true → ∃ lp, nodes2 = nodes ++
      [⟨k, (if Treeger.parent_string k == "" then none
            else some (Treeger.parent_string k)), tn, none, lp⟩]) := by
  unfold Treeger.mount_checked Treeger.insert_node at heq
  by_cases hp : (match (if (Treeger.parent_string k == "") = true then none
      else some (Treeger.parent_string k) : Option String) with
      | some pk => !(Treeger.has_node nodes pk)
      | none => false) = true
  · rw [if_pos hp] at heq
    have h1 := congrArg (fun p => p.1) heq
    have h3 := congrArg (fun p => p.2.2.1) heq
    exact ⟨fun _ => h1.symm, fun htrue => absurd (h3.trans htrue) (by simp)⟩
  · rw [if_neg hp] at heq
    rcases tmpl with _ | t
    · have h1 := congrArg (fun p => p.1) heq
      have h3 := congrArg (fun p => p.2.2.1) heq
      exact ⟨fun hfalse => absurd (h3.trans hfalse) (by simp), fun _ => ⟨none, h1.symm⟩⟩
    · simp only [] at heq
      rcases hhook : hook t k mp with e | ret
      · rw [hhook] at heq
        have h1 := congrArg (fun p => p.1) heq
        have h3 := congrArg (fun p => p.2.2.1) heq
        exact ⟨fun _ => h1.symm, fun htrue => absurd (h3.trans htrue) (by simp)⟩
      · rcases ret with _ | d | _
        · rw [hhook] at heq
          have h1 := congrArg (fun p => p.1) heq
          have h3 := congrArg (fun p => p.2.2.1) heq
          exact ⟨fun hfalse => absurd (h3.trans hfalse) (by simp), fun _ => ⟨none, h1.symm⟩⟩
        · rw [hhook] at heq
          have h1 := congrArg (fun p => p.1) heq
          have h3 := congrArg (fun p => p.2.2.1) heq
          exact ⟨fun hfalse => absurd (h3.trans hfalse) (by simp),
            fun _ => ⟨(if d.isEmpty then none else some (Treeger.json_dumps d)), h1.symm⟩⟩
        · rw [hhook] at heq
          have h1 := congrArg (fun p => p.1) heq
          have h3 := congrArg (fun p => p.2.2.1) heq
          exact ⟨fun _ => h1.symm, fun htrue => absurd (h3.trans htrue) (by simp)⟩

/-- Claim C5: mount is atomic on failure.  Whenever mount reports failure —
named template missing from the module cache, non-empty parent missing,
mount hook raising, or hook returning non-dict launch params — the node
table is unchanged; and a success on a fresh key appends exactly the one
validated record (same key, computed parent, the given template name). -/
theorem claim_C5_mount_atomic {α : Type} (cache : List String)
    (hook : String → String → Option α → Except String HookRet)
    (nodes : List NodeRecord) (k : String) (tn : Option String) (mp : Option α)
    (nodes2 : List NodeRecord) (log : List (String × String × Option α))
    (ok : Bool) (msg : String)
    (heq : Treeger.mount cache hook nodes k tn mp = (nodes2, log, (ok, msg))) :
    (ok = false → nodes2 = nodes) ∧
    (ok = true → Treeger.has_node nodes k = true ∨
      ∃ lp, nodes2 = nodes ++
        [⟨k, (if Treeger.parent_string k == "" then none
              else some (Treeger.parent_string k)), tn, none, lp⟩]) := by
  unfold Treeger.mount at heq
  by_cases hmem : Treeger.has_node nodes k = true
  · rw [if_pos hmem] at heq
    have h1 := congrArg (fun p => p.1) heq
    exact ⟨fun _ => h1.symm, fun _ => Or.inl hmem⟩
  · rw [if_neg hmem] at heq
    have hstep : ∀ (tmpl : Option String),
        Treeger.mount_checked hook nodes k tn tmpl mp = (nodes2, log, (ok, msg)) →
        (ok = false → nodes2 = nodes) ∧
        (ok = true → Treeger.has_node nodes k = true ∨
          ∃ lp, nodes2 = nodes ++
            [⟨k, (if Treeger.parent_string k == "" then none
                  else some (Treeger.parent_string k)), tn, none, lp⟩]) := by
      intro tmpl hch
      have h := Treeger.mount_checked_atomic hook nodes k tn tmpl mp nodes2 log ok msg hch
      exact ⟨h.1, fun htrue => Or.inr (h.2 htrue)⟩
    rcases tn with _ | t
    · exact hstep none heq
    · simp only [] at heq
      by_cases ht : (t != "") = true
      · rw [if_pos ht] at heq
        simp only [] at heq
        by_cases hc : cache.contains t = true
        · have hcn : (!(cache.contains t)) = false := by rw [hc]; rfl
          rw [hcn] at heq
          simp only [Bool.false_eq_true, if_false] at heq
          exact hstep (some t) heq
        · have hc2 : cache.contains t = false := by simpa using hc
          have hcn : (!(cache.contains t)) = true := by rw [hc2]; rfl
          rw [hcn] at heq
          simp only [if_true] at heq
          have h1 := congrArg (fun p => p.1) heq
          have h3 := congrArg (fun p => p.2.2.1) heq
          exact ⟨fun _ => h1.symm, fun htrue => absurd (h3.trans htrue) (by simp)⟩
      · have ht2 : (t != "") = false := by simpa using ht
        rw [ht2] at heq
        simp only [Bool.false_eq_true, if_false] at heq
        exact hstep none heq

/-- Witness for claim C5: mounting "x" with an unknown template on an empty
tree fails and inserts nothing. -/
theorem claim_C5_mount_atomic_witness :
    (false = false → ([] : List NodeRecord) = []) ∧
    (false = true → Treeger.has_node [] "x" = true ∨
      ∃ lp, ([] : List NodeRecord) = [] ++
        [⟨"x", (if Treeger.parent_string "x" == "" then none
                else some (Treeger.parent_string "x")), some "t", none, lp⟩]) :=
  claim_C5_mount_atomic [] (fun _ _ _ => Except.ok HookRet.noneVal) [] "x"
    (some "t") (none : Option Nat) [] [] false
    "ResourceNodeTemplate \"t\" not found in noodle module cache" (by rfl)

theorem Treeger.unmount_walk_raised_shape (cache : List String)
    (nodes : List NodeRecord) (root : String) :
    ∀ (fuel : Nat) (stack : List String) (locks : List LockRecord)
      (visited : List (String × Option String)) (ctr : Nat)
      (e : PyError) (visited2 : List (String × Option String))
      (locks2 : List LockRecord) (ctr2 : Nat),
    Treeger.unmount_walk cache nodes root fuel stack locks visited ctr =
      WalkResult.raised e visited2 locks2 ctr2 →
    ∃ (added : List LockRecord) (pre : List (String × Option String)),
      locks2 = locks ++ added ∧
      visited2 = visited ++ pre ∧
      (∀ p ∈ added, ∃ v ∈ pre, p.node_key = v.1) ∧
      (∀ v ∈ pre, ∀ l ∈ locks, l.node_key ≠ v.1) := by
  intro fuel
  induction fuel with
  | zero =>
    intro stack locks visited ctr e visited2 locks2 ctr2 h
    rw [Treeger.unmount_walk] at h
    exact absurd h (by simp)
  | succ n ih =>
    intro stack locks visited ctr e visited2 locks2 ctr2 h
    rcases stack with _ | ⟨k, rest⟩
    · rw [Treeger.unmount_walk] at h
      exact absurd h (by simp)
    · rw [Treeger.unmount_walk] at h
      rcases hfind : List.find? (fun r => r.node_key == k) nodes with _ | r
      · rw [hfind] at h
        simp only [] at h
        obtain ⟨_, h2, h3, _⟩ := WalkResult.raised.inj h
        refine ⟨[], [], by simp [h3.symm], by simp [h2.symm], by simp, by simp⟩
      · rw [hfind] at h
        simp only [] at h
        by_cases hproxy : Treeger.is_proxy_info r.access_info = true
        · rw [if_pos hproxy] at h
          exact ih rest locks visited ctr e visited2 locks2 ctr2 h
        · rw [if_neg hproxy] at h
          by_cases hlocked : RWLock.is_node_locked locks k = true
          · rw [if_pos hlocked] at h
            obtain ⟨_, h2, h3, _⟩ := WalkResult.raised.inj h
            refine ⟨[], [], by simp [h3.symm], by simp [h2.symm], by simp, by simp⟩
          · rw [if_neg hlocked] at h
            obtain ⟨added1, pre1, hl1, hv1, hadd1, hpre1⟩ :=
              ih _ _ _ _ _ _ _ _ h
            have hlockfree : ∀ l ∈ locks, l.node_key ≠ k := by
              intro l hlmem
              have hany : locks.any (fun q => q.node_key == k) = false := by
                simpa [RWLock.is_node_locked] using hlocked
              have := List.any_eq_false.mp hany l hlmem
              simpa using this
            refine ⟨⟨k, "w", Treeger.prelock_id ctr, "l"⟩ :: added1,
              (k, Treeger.record_template cache r) :: pre1, ?_, ?_, ?_, ?_⟩
            · rw [hl1]
              simp
            · rw [hv1]
              simp
            · intro p hp
              rcases List.mem_cons.mp hp with hph | hpt
              · exact ⟨(k, Treeger.record_template cache r), List.mem_cons_self _ _,
                  by rw [hph]⟩
              · obtain ⟨v, hvmem, hvk⟩ := hadd1 p hpt
                exact ⟨v, List.mem_cons_of_mem _ hvmem, hvk⟩
            · intro v hv l hlmem
              rcases List.mem_cons.mp hv with hvh | hvt
              · rw [hvh]
                exact hlockfree l hlmem
              · exact hpre1 v hvt l (List.mem_append_left _ hlmem)

/-- Claim C3: if the unmount walk reaches a locked non-proxy node (raising
the locked-node ValueError of treeger.py line 249-251), the whole unmount
returns failure with the diagnostic naming that node, every pre-lock taken
during the walk is released (the lock table is exactly the original one),
no node record is deleted and no unmount hook runs (the hook log is
empty) — the tree is left unchanged. -/
theorem claim_C3_unmount_locked_aborts (cache : List String)
    (nodes : List NodeRecord) (locks : List LockRecord) (root lk : String)
    (fuel : Nat) (visited2 : List (String × Option String))
    (locks2 : List LockRecord) (ctr2 : Nat)
    (hmem : Treeger.has_node nodes root = true)
    (hwalk : Treeger.unmount_walk cache nodes root fuel [root] locks [] 0 =
      WalkResult.raised (PyError.valueError (Treeger.locked_msg lk root))
        visited2 locks2 ctr2) :
    Treeger.unmount cache nodes locks root fuel =
      ((nodes, locks), [], (false, Treeger.locked_msg lk root)) := by
  obtain ⟨added, pre, hl, hv, hadd, hpre⟩ :=
    Treeger.unmount_walk_raised_shape cache nodes root fuel [root] locks [] 0 _
      visited2 locks2 ctr2 hwalk
  simp only [List.nil_append] at hv
  have hlocks3 :
      (if visited2.isEmpty then locks2
       else
         match RWLock.unlock_nodes locks2 (visited2.map Prod.fst) with
         | Except.ok l => l
         | Except.error _ => locks2) = locks := by
    by_cases hve : visited2 = []
    · have hpre0 : pre = [] := by rw [hve] at hv; exact hv.symm
      have hadd0 : added = [] := by
        rcases added with _ | ⟨p, ps⟩
        · rfl
        · obtain ⟨v, hvmem, _⟩ := hadd p (List.mem_cons_self _ _)
          rw [hpre0] at hvmem
          exact absurd hvmem (List.not_mem_nil v)
      rw [hve]
      simp only [List.isEmpty_nil, if_true]
      rw [hl, hadd0, List.append_nil]
    · have hviE : visited2.isEmpty = false := by
        rcases visited2 with _ | ⟨a, as⟩
        · exact absurd rfl hve
        · rfl
      rw [hviE]
      simp only [Bool.false_eq_true, if_false]
      have hkeysne : (visited2.map Prod.fst) ≠ [] := by
        rcases visited2 with _ | ⟨a, as⟩
        · exact absurd rfl hve
        · simp
      have hkeysE : (visited2.map Prod.fst).isEmpty = false := by
        rcases hk : visited2.map Prod.fst with _ | ⟨a, as⟩
        · exact absurd hk hkeysne
        · rfl
      unfold RWLock.unlock_nodes
      rw [hkeysE]
      simp only [Bool.false_eq_true, if_false]
      rw [hl, List.filter_append]
      have hkeep : locks.filter
          (fun r => !((visited2.map Prod.fst).contains r.node_key)) = locks := by
        apply List.filter_eq_self.mpr
        intro l hlmem
        have hnot : ¬ l.node_key ∈ visited2.map Prod.fst := by
          intro hin
          obtain ⟨v, hvmem, hveq⟩ := List.mem_map.mp hin
          rw [hv] at hvmem
          exact hpre v hvmem l hlmem hveq.symm
        simp [List.elem_iff, hnot]
      have hdrop : added.filter
          (fun r => !((visited2.map Prod.fst).contains r.node_key)) = [] := by
        apply List.filter_eq_nil_iff.mpr
        intro p hpmem
        obtain ⟨v, hvmem, hveq⟩ := hadd p hpmem
        have hin : p.node_key ∈ visited2.map Prod.fst := by
          rw [hv]
          exact List.mem_map.mpr ⟨v, hvmem, hveq.symm⟩
        simp [List.elem_iff, hin]
      rw [hkeep, hdrop, List.append_nil]
  unfold Treeger.unmount
  rw [hmem, hwalk]
  simp only [Bool.not_true, Bool.false_eq_true, if_false]
  simp only [List.isEmpty_iff] at hlocks3
  simp [Prod.mk.injEq, hlocks3, PyError.message]

/-- Witness for claim C3: a read lock on a.c makes the unmount of the set a
abort, releasing the pre-lock taken on a and leaving nodes and locks as
they were. -/
theorem claim_C3_unmount_locked_aborts_witness :
    Treeger.unmount ["tb", "tc"]
      [⟨"a", none, none, none, none⟩,
       ⟨"a.b", some "a", some "tb", none, none⟩,
       ⟨"a.c", some "a", some "tc", none, none⟩]
      [⟨"a.c", "r", "somelock", "l"⟩] "a" 10 =
      (([⟨"a", none, none, none, none⟩,
         ⟨"a.b", some "a", some "tb", none, none⟩,
         ⟨"a.c", some "a", some "tc", none, none⟩],
        [⟨"a.c", "r", "somelock", "l"⟩]),
       [], (false, Treeger.locked_msg "a.c" "a")) :=
  claim_C3_unmount_locked_aborts ["tb", "tc"]
    [⟨"a", none, none, none, none⟩,
     ⟨"a.b", some "a", some "tb", none, none⟩,
     ⟨"a.c", some "a", some "tc", none, none⟩]
    [⟨"a.c", "r", "somelock", "l"⟩] "a" "a.c" 10
    [("a", none)]
    [⟨"a.c", "r", "somelock", "l"⟩, ⟨"a", "w", "unmount-prelock-0", "l"⟩] 1
    (by decide) (by decide)
